import Mathlib

/-!
# Verification of the pokemon_tcg_sdk query engine

A shallow embedding of `src/lib.rs` of the `pokemon_tcg_sdk` crate: the
resource router (`Url::path`), the client state (`Client.args`), and the
query engine (`find`, `_where`, `all`), together with proofs about the
spec's claims.

Modelling decisions:
* `HashMap<String, String>` is modelled as an association list with
  replace-or-append insertion (`Args.insert`) and first-match lookup
  (`Args.lookup`); this is extensionally the map behaviour of the Rust
  `HashMap` (iteration order is irrelevant to every property proved here).
* The HTTP transport is modelled as a finite stream (`List`) of
  `Response T` values consumed one per issued GET request; a response is
  either a transport-layer error (`reqwest::Error`), or an `Ok` body that
  either fails to decode as `VecContainer<T>` (`ok none`) or decodes to the
  item list `data` (`ok (some items)`).  For `find` a single
  `FindResponse T` plays the same role for the `Container<T>` envelope.
* Issued requests are logged (`Request`: URL, optional query-string
  arguments, headers), so "no network call" and "query parameters attached"
  are statable.
* The `'paging` loop of `all` is embedded as structural recursion on the
  remaining response stream.  If the loop exits via `break 'paging` within
  the supplied stream, the outcome has `halted = true` (and `args.clear()`
  at line 165 runs); if the stream is exhausted first, `halted = false`
  records that the Rust loop is still running and about to issue yet
  another request.
* `val.parse::<i32>().unwrap_or(0)` is modelled by `parseI32or0` (optional
  sign, decimal digits, `i32` range check, default 0 on failure), and the
  release-mode wrap-around of `num += 1` by `wrap32`.
-/

namespace PokemonTcgSdk

/-- The constant `pub const POKEMON_TCG_URL` (lib.rs line 8). -/
def POKEMON_TCG_URL : String := "https://api.pokemontcg.io/v2"

/-- The six resource kinds that implement the `Url` trait. -/
inductive ResourceKind where
  | card | set | type | supertype | subtype | rarity
  deriving DecidableEq, Repr

/-- The router: `Url::path()` of each impl (lib.rs lines 35-57). -/
def ResourceKind.path : ResourceKind → String
  | .card => "cards"
  | .type => "types"
  | .supertype => "supertypes"
  | .subtype => "subtypes"
  | .set => "sets"
  | .rarity => "rarities"

/-! ## The args map (`HashMap<String, String>`) -/

/-- The `args` field of `Client`, modelled as an association list. -/
abbrev Args := List (String × String)

/-- Lookup, as `HashMap::get`: first-match lookup. -/
def Args.lookup : Args → String → Option String
  | [], _ => none
  | p :: rest, k => if p.1 = k then some p.2 else Args.lookup rest k

/-- Insertion, as `HashMap::insert`: replace the entry for the key, or append it. -/
def Args.insert : Args → String → String → Args
  | [], k, v => [(k, v)]
  | p :: rest, k, v => if p.1 = k then (k, v) :: rest else p :: Args.insert rest k v

/-! ## Integer parsing (`val.parse::<i32>().unwrap_or(0)`) and formatting -/

/-- Decimal digit run parser: all characters must be digits, at least one. -/
def parseDigitsAux : List Char → Nat → Option Nat
  | [], acc => some acc
  | c :: cs, acc =>
    if c.isDigit then parseDigitsAux cs (acc * 10 + (c.toNat - 48)) else none

/-- Parse a non-empty all-digit character list as a natural number. -/
def parseDigits : List Char → Option Nat
  | [] => none
  | cs => parseDigitsAux cs 0

/-- Rust's `str::parse::<i32>`: optional sign, decimal digits, `i32` range. -/
def parseI32 (s : String) : Option Int :=
  let core : List Char → Bool → Option Int := fun cs neg =>
    match parseDigits cs with
    | none => none
    | some n =>
      let v : Int := if neg then -(n : Int) else (n : Int)
      if -(2 ^ 31) ≤ v ∧ v < 2 ^ 31 then some v else none
  match s.data with
  | '-' :: cs => core cs true
  | '+' :: cs => core cs false
  | cs => core cs false

/-- The expression `val.parse().unwrap_or(0)` (lib.rs line 151). -/
def parseI32or0 (s : String) : Int := (parseI32 s).getD 0

/-- Release-mode two's-complement wrap of `i32` addition results. -/
def wrap32 (n : Int) : Int := (n + 2 ^ 31) % 2 ^ 32 - 2 ^ 31

/-! ## Transport model -/

/-- One transport answer to a collection GET request: a `reqwest` error, or
an `Ok` response whose body decodes as `VecContainer<T>` (`ok (some items)`)
or fails to decode (`ok none`). -/
inductive Response (T : Type) where
  | transportError : Response T
  | ok : Option (List T) → Response T
  deriving DecidableEq, Repr

/-- One transport answer to a `find` GET request, with the body decoded as
the single-item envelope `Container<T>`. -/
inductive FindResponse (T : Type) where
  | transportError : FindResponse T
  | ok : Option T → FindResponse T
  deriving DecidableEq, Repr

/-- A logged outgoing GET request. `query = none` models the request built
without `.query(&self.args)` (the `args.len() == 0` branch, lib.rs lines
131-136); `query = some a` models `.query(&self.args)` with `a` the args at
send time. -/
structure Request where
  url : String
  query : Option Args
  apiKey : String
  userAgent : String
  deriving DecidableEq, Repr

/-! ## Client -/

/-- The `Client` struct (lib.rs lines 11-16), minus the `reqwest::Client`
handle (which carries no query-relevant state). -/
structure Client where
  key : String
  args : Args
  deriving DecidableEq, Repr

/-- The constructor `Client::new` (lib.rs lines 20-26). -/
def Client.new (key : String) : Client := { key := key, args := [] }

/-! ## `find` (lib.rs lines 74-97) -/

/-- The URL segments excluded from `find` by the match on lines 77-80. -/
def excludedSegments : List String := ["types", "supertypes", "subtypes", "rarities"]

/-- The operation `Query::find::<T>` for a client `c`, resource kind `k`, identifier
`id`.  `resp` is the transport's answer to the single GET request, consumed
only if that request is issued.  Returns the `Option<T>` result and the log
of issued requests. -/
def Client.find {T : Type} (c : Client) (k : ResourceKind) (id : String)
    (resp : FindResponse T) : Option T × List Request :=
  let u := k.path
  if u ∈ excludedSegments then (none, [])
  else
    let req : Request :=
      { url := POKEMON_TCG_URL ++ "/" ++ u ++ "/" ++ id
        query := none
        apiKey := c.key
        userAgent := "Mozilla/5.0" }
    match resp with
    | .transportError => (none, [req])
    | .ok none => (none, [req])
    | .ok (some t) => (some t, [req])

/-! ## `all` (lib.rs lines 110-167) -/

/-- Outcome of running `all` against a finite transport stream.  `halted`
is `true` iff the `'paging` loop exited via `break 'paging` within the
stream; when `halted = false` the stream ran out with the Rust loop still
running (about to issue another request), so the function has not returned
and lines 165-166 have not executed. -/
structure AllOutcome (T : Type) where
  res : List T
  log : List Request
  client : Client
  halted : Bool
  deriving Repr

/-- The request built and sent on one pass of the `'paging` loop (lib.rs
lines 125-137): `.query(&self.args)` is attached exactly when
`self.args.len() > 0`. -/
def loopRequest (key url : String) (args : Args) : Request :=
  { url := url
    query := if args.length > 0 then some args else none
    apiKey := key
    userAgent := "Mozilla/5.0" }

/-- One pass of the `'paging` loop (lib.rs lines 124-164), recursing on the
remaining transport stream.  Parameters mirror the Rust local state:
`fetchAll` is `fetch_all`, `res` the accumulator, `log` the requests issued
so far. -/
def allLoop {T : Type} (key : String) (url : String) :
    List (Response T) → Args → Bool → List T → List Request → AllOutcome T
  | [], args, _, res, log =>
      -- stream exhausted: the Rust loop is still running
      { res := res, log := log, client := { key := key, args := args }, halted := false }
  | r :: rest, args, fetchAll, res, log =>
      -- lines 125-137: build and send the request
      let log := log ++ [loopRequest key url args]
      match r with
      | .transportError =>
          -- lines 161-163: `break 'paging`
          { res := res, log := log, client := { key := key, args := args }, halted := true }
      | .ok none =>
          -- decode failure (line 141's `if let` does not match): the loop
          -- body ends with no break, so the loop continues
          allLoop key url rest args fetchAll res log
      | .ok (some items) =>
          -- lines 143-147: append every item
          let res := res ++ items
          -- lines 149-159
          if fetchAll then
            match Args.lookup args "page" with
            | some v =>
                -- lines 150-153: advance the page counter
                allLoop key url rest
                  (Args.insert args "page" (toString (wrap32 (parseI32or0 v + 1))))
                  fetchAll res log
            | none =>
                -- lines 154-155: `fetch_all = false`, loop continues
                allLoop key url rest args false res log
          else
            -- lines 157-158: `break 'paging`
            { res := res, log := log, client := { key := key, args := args }, halted := true }

/-- The collection URL `format!("{POKEMON_TCG_URL}/{u}")` (lib.rs line 116). -/
def collectionUrl (k : ResourceKind) : String :=
  POKEMON_TCG_URL ++ "/" ++ k.path

/-- Lines 118-122 of `all`: if `args` already has a `page` key it is kept
(and `fetch_all`, initialized `true` on line 112, is reassigned `true`);
otherwise `page = "1"` is inserted.  Either way `fetch_all` is `true` when
the loop is entered, so only the args part is returned here. -/
def seedArgs (args : Args) : Args :=
  if (Args.lookup args "page").isSome then args else Args.insert args "page" "1"

/-- The operation `Query::all::<T>` (lib.rs lines 110-167): seeds `fetch_all = true`
(line 112; the branch on lines 118-119 reassigns `true`) and the `page`
argument (lines 120-122), runs the `'paging` loop against the transport
stream `responses`, and — when the loop breaks — clears `args` (line 165). -/
def Client.all {T : Type} (c : Client) (k : ResourceKind)
    (responses : List (Response T)) : AllOutcome T :=
  let o := allLoop c.key (collectionUrl k) responses (seedArgs c.args) true [] []
  if o.halted then
    -- line 165: `self.args.clear();`
    { o with client := { key := c.key, args := [] } }
  else o

/-- The operation `Query::_where::<T>` (lib.rs lines 100-107): clear `self.args`, copy in
the supplied mapping pair by pair, then delegate to `all`. -/
def Client.whereQ {T : Type} (c : Client) (k : ResourceKind)
    (m : List (String × String)) (responses : List (Response T)) : AllOutcome T :=
  let args := m.foldl (fun acc p => Args.insert acc p.1 p.2) ([] : Args)
  Client.all { c with args := args } k responses

/-- Whether a logged request was sent with query-string arguments that
include a `page` parameter. -/
def Request.hasPageQuery (r : Request) : Bool :=
  match r.query with
  | none => false
  | some a => (Args.lookup a "page").isSome

/-! ## Lemmas about the args map -/

@[simp] theorem Args.lookup_nil (k : String) : Args.lookup [] k = none := rfl

@[simp] theorem Args.lookup_insert (a : Args) (k v : String) :
    Args.lookup (Args.insert a k v) k = some v := by
  induction a with
  | nil => simp [Args.insert, Args.lookup]
  | cons p rest ih =>
    by_cases h : p.1 = k
    · simp [Args.insert, Args.lookup, h]
    · simp [Args.insert, Args.lookup, h, ih]

theorem Args.insert_ne_nil (a : Args) (k v : String) : Args.insert a k v ≠ [] := by
  cases a with
  | nil => simp [Args.insert]
  | cons p rest =>
    by_cases h : p.1 = k <;> simp [Args.insert, h]

theorem Args.lookup_isSome_ne_nil {a : Args} {k : String}
    (h : (Args.lookup a k).isSome) : a ≠ [] := by
  intro hnil; subst hnil; simp [Args.lookup] at h

theorem Args.insert_of_lookup_none {a : Args} {k : String} (v : String)
    (h : Args.lookup a k = none) : Args.insert a k v = a ++ [(k, v)] := by
  induction a with
  | nil => simp [Args.insert]
  | cons p rest ih =>
    by_cases hp : p.1 = k
    · simp [Args.lookup, hp] at h
    · simp [Args.lookup, hp] at h
      simp [Args.insert, hp, ih h]

theorem Args.lookup_append_right {a : Args} {k : String} (b : Args)
    (h : Args.lookup a k = none) : Args.lookup (a ++ b) k = Args.lookup b k := by
  induction a with
  | nil => simp
  | cons p rest ih =>
    by_cases hp : p.1 = k
    · simp [Args.lookup, hp] at h
    · simp [Args.lookup, hp] at h ⊢
      exact ih h

/-! ## Lemmas about the paging loop -/

theorem allLoop_cons {T : Type} (key url : String) (r : Response T)
    (rest : List (Response T)) (args : Args) (fetchAll : Bool) (res : List T)
    (log : List Request) :
    allLoop key url (r :: rest) args fetchAll res log =
      match r with
      | .transportError =>
          { res := res, log := log ++ [loopRequest key url args]
            client := { key := key, args := args }, halted := true }
      | .ok none => allLoop key url rest args fetchAll res (log ++ [loopRequest key url args])
      | .ok (some items) =>
          if fetchAll then
            match Args.lookup args "page" with
            | some v =>
                allLoop key url rest
                  (Args.insert args "page" (toString (wrap32 (parseI32or0 v + 1))))
                  fetchAll (res ++ items) (log ++ [loopRequest key url args])
            | none =>
                allLoop key url rest args false (res ++ items)
                  (log ++ [loopRequest key url args])
          else
            { res := res ++ items, log := log ++ [loopRequest key url args]
              client := { key := key, args := args }, halted := true } := by
  cases r with
  | transportError => rfl
  | ok o => cases o with
    | none => rfl
    | some items => rfl

/-- The `log` accumulator only collects output: it can be factored out. -/
theorem allLoop_log_shift {T : Type} (key url : String)
    (rs : List (Response T)) :
    ∀ (args : Args) (fetchAll : Bool) (res : List T) (log : List Request),
      (allLoop key url rs args fetchAll res log).log =
        log ++ (allLoop key url rs args fetchAll res []).log := by
  induction rs with
  | nil => intro args fetchAll res log; simp [allLoop]
  | cons r rest ih =>
    intro args fetchAll res log
    cases r with
    | transportError => simp [allLoop_cons]
    | ok o => cases o with
      | none =>
        rw [allLoop_cons, allLoop_cons, ih, ih args fetchAll res ([] ++ [_])]
        simp
      | some items =>
        rw [allLoop_cons, allLoop_cons]
        by_cases hfa : fetchAll
        · subst hfa
          cases hp : Args.lookup args "page" with
          | some v =>
            simp only [if_true]
            rw [ih, ih _ _ _ ([] ++ [_])]
            simp
          | none =>
            simp only [if_true]
            rw [ih, ih _ _ _ ([] ++ [_])]
            simp
        · simp [hfa]

/-- A successfully decoded page with the `page` argument present advances
the page counter and loops (lib.rs lines 143-153). -/
theorem allLoop_ok_some_page {T : Type} (key url : String) (items : List T)
    (rest : List (Response T)) (args : Args) (res : List T) (log : List Request)
    (v : String) (hv : Args.lookup args "page" = some v) :
    allLoop key url (Response.ok (some items) :: rest) args true res log =
      allLoop key url rest
        (Args.insert args "page" (toString (wrap32 (parseI32or0 v + 1))))
        true (res ++ items) (log ++ [loopRequest key url args]) := by
  rw [allLoop_cons, hv]
  rfl

/-- Against a stream of `n` successfully decoded pages, the loop (entered
with `fetch_all = true` and a `page` argument, which is how `all` always
enters it) issues `n` requests and never breaks. -/
theorem allLoop_ok_stream {T : Type} (key url : String) (items : List T) :
    ∀ (n : Nat) (args : Args) (res : List T) (log : List Request),
      (Args.lookup args "page").isSome →
      (allLoop key url (List.replicate n (Response.ok (some items))) args true res log).halted
          = false ∧
      (allLoop key url (List.replicate n (Response.ok (some items))) args true res log).log.length
          = log.length + n := by
  intro n
  induction n with
  | zero => intro args res log _; simp [allLoop]
  | succ n ih =>
    intro args res log h
    obtain ⟨v, hv⟩ := Option.isSome_iff_exists.mp h
    rw [List.replicate_succ, allLoop_ok_some_page key url items _ args res log v hv]
    obtain ⟨h1, h2⟩ := ih (Args.insert args "page" (toString (wrap32 (parseI32or0 v + 1))))
      (res ++ items) (log ++ [loopRequest key url args]) (by simp)
    refine ⟨h1, ?_⟩
    rw [h2]
    simp
    omega

/-- Against a stream of `n` responses whose bodies fail to decode, the loop
issues `n` requests without breaking, appending nothing and leaving `args`
untouched. -/
theorem allLoop_decode_fail_stream {T : Type} (key url : String) :
    ∀ (n : Nat) (args : Args) (fetchAll : Bool) (res : List T) (log : List Request),
      allLoop key url (List.replicate n (Response.ok (none : Option (List T)))) args
          fetchAll res log =
        { res := res, log := log ++ List.replicate n (loopRequest key url args)
          client := { key := key, args := args }, halted := false } := by
  intro n
  induction n with
  | zero => intro args fetchAll res log; simp [allLoop]
  | succ n ih =>
    intro args fetchAll res log
    rw [List.replicate_succ, allLoop_cons, ih]
    simp [List.replicate_succ]

/-- Page-presence invariant: once `args` contains a `page` key, every
request the loop goes on to issue is sent with query arguments containing
`page`. -/
theorem allLoop_page_invariant {T : Type} (key url : String)
    (rs : List (Response T)) :
    ∀ (args : Args) (fetchAll : Bool) (res : List T) (log : List Request),
      (Args.lookup args "page").isSome →
      log.all Request.hasPageQuery = true →
      (allLoop key url rs args fetchAll res log).log.all Request.hasPageQuery = true := by
  induction rs with
  | nil => intro args fa res log _ hlog; simpa [allLoop] using hlog
  | cons r rest ih =>
    intro args fa res log hpage hlog
    have hne : args ≠ [] := Args.lookup_isSome_ne_nil hpage
    have hlen : args.length > 0 := List.length_pos.mpr hne
    have hreq : Request.hasPageQuery (loopRequest key url args) = true := by
      simp [loopRequest, Request.hasPageQuery, hlen, hpage]
    have hlog' : (log ++ [loopRequest key url args]).all Request.hasPageQuery = true := by
      simp [List.all_append, hlog, hreq]
    cases r with
    | transportError => rw [allLoop_cons]; exact hlog'
    | ok o => cases o with
      | none => rw [allLoop_cons]; exact ih args fa res _ hpage hlog'
      | some items =>
        cases fa with
        | false => rw [allLoop_cons]; simpa using hlog'
        | true =>
          obtain ⟨v, hv⟩ := Option.isSome_iff_exists.mp hpage
          rw [allLoop_ok_some_page key url items rest args res log v hv]
          exact ih _ _ _ _ (by simp) hlog'

/-! ## Lemmas about `Client.all` -/

theorem seedArgs_has_page (args : Args) :
    (Args.lookup (seedArgs args) "page").isSome := by
  unfold seedArgs
  by_cases h : (Args.lookup args "page").isSome <;> simp [h]

theorem seedArgs_of_lookup_some {args : Args} {v : String}
    (h : Args.lookup args "page" = some v) : seedArgs args = args := by
  simp [seedArgs, h]

theorem seedArgs_nil : seedArgs [] = [("page", "1")] := by
  simp [seedArgs, Args.insert]

theorem Client.all_log {T : Type} (c : Client) (k : ResourceKind)
    (rs : List (Response T)) :
    (Client.all c k rs).log =
      (allLoop c.key (collectionUrl k) rs (seedArgs c.args) true [] []).log := by
  unfold Client.all
  by_cases h : (allLoop c.key (collectionUrl k) rs (seedArgs c.args) true [] []).halted <;>
    simp [h]

theorem Client.all_res {T : Type} (c : Client) (k : ResourceKind)
    (rs : List (Response T)) :
    (Client.all c k rs).res =
      (allLoop c.key (collectionUrl k) rs (seedArgs c.args) true [] []).res := by
  unfold Client.all
  by_cases h : (allLoop c.key (collectionUrl k) rs (seedArgs c.args) true [] []).halted <;>
    simp [h]

theorem Client.all_halted {T : Type} (c : Client) (k : ResourceKind)
    (rs : List (Response T)) :
    (Client.all c k rs).halted =
      (allLoop c.key (collectionUrl k) rs (seedArgs c.args) true [] []).halted := by
  unfold Client.all
  by_cases h : (allLoop c.key (collectionUrl k) rs (seedArgs c.args) true [] []).halted <;>
    simp [h]

/-- The first request the loop issues is built from the args it was entered
with. -/
theorem allLoop_log_head {T : Type} (key url : String) (r : Response T)
    (rest : List (Response T)) (args : Args) (fa : Bool) (res : List T) :
    (allLoop key url (r :: rest) args fa res []).log.head? =
      some (loopRequest key url args) := by
  rw [allLoop_cons]
  cases r with
  | transportError => simp
  | ok o => cases o with
    | none => rw [allLoop_log_shift]; simp
    | some items =>
      cases fa with
      | false => simp
      | true =>
        cases hp : Args.lookup args "page" with
        | some v =>
          simp only [if_true, hp]
          rw [allLoop_log_shift]
          simp
        | none =>
          simp only [if_true, hp]
          rw [allLoop_log_shift]
          simp

/-- Folding `HashMap::insert` over a list of pairs with pairwise-distinct
keys, starting from a map that binds none of those keys, just appends the
pairs. -/
theorem foldl_insert_of_nodup_keys :
    ∀ (m : List (String × String)) (acc : Args),
      (∀ p ∈ m, Args.lookup acc p.1 = none) →
      m.Pairwise (fun p q => p.1 ≠ q.1) →
      m.foldl (fun a p => Args.insert a p.1 p.2) acc = acc ++ m := by
  intro m
  induction m with
  | nil => intro acc _ _; simp
  | cons p rest ih =>
    intro acc hacc hpw
    simp only [List.foldl_cons]
    have hlook : Args.lookup acc p.1 = none := hacc p (by simp)
    rw [Args.insert_of_lookup_none p.2 hlook]
    rw [List.pairwise_cons] at hpw
    have hacc' : ∀ q ∈ rest, Args.lookup (acc ++ [(p.1, p.2)]) q.1 = none := by
      intro q hq
      rw [Args.lookup_append_right _ (hacc q (by simp [hq]))]
      have hne : p.1 ≠ q.1 := hpw.1 q hq
      simp [Args.lookup, hne]
    rw [ih (acc ++ [(p.1, p.2)]) hacc' hpw.2]
    simp

/-! ## Claim theorems -/

/-- Claim C4: for every resource kind whose router segment is in
`{"types","supertypes","subtypes","rarities"}` and every identifier string,
`find(id)` returns `None` without issuing any network call, whatever the
transport would have answered. -/
theorem find_excluded_returns_none_no_request {T : Type} (c : Client)
    (k : ResourceKind) (id : String) (resp : FindResponse T)
    (h : k.path ∈ excludedSegments) :
    Client.find c k id resp = (none, []) := by
  simp [Client.find, h]

/-- Witness for C4: the `types` segment is excluded and a concrete `find`
returns `(none, no requests)` even though the transport had a payload. -/
theorem find_excluded_returns_none_no_request_witness :
    ResourceKind.type.path ∈ excludedSegments ∧
    Client.find (T := Nat) (Client.new "k") ResourceKind.type "Colorless"
      (FindResponse.ok (some 7)) = (none, []) :=
  ⟨by decide, find_excluded_returns_none_no_request _ _ _ _ (by decide)⟩

/-- Claim C5: for every resource kind with a lookup-by-id endpoint, `find(id)`
returns `some` of the unwrapped single-envelope payload exactly when the
transport succeeds and the body decodes; on a transport error or a decode
failure it returns `none`, so absence and failure are indistinguishable. -/
theorem find_some_iff_decoded_envelope {T : Type} (c : Client)
    (k : ResourceKind) (id : String) (resp : FindResponse T)
    (h : k.path ∉ excludedSegments) :
    (∀ t : T, (Client.find c k id resp).1 = some t ↔ resp = FindResponse.ok (some t)) ∧
    ((Client.find c k id resp).1 = none ↔
      resp = FindResponse.transportError ∨ resp = FindResponse.ok none) := by
  cases resp with
  | transportError => simp [Client.find, h]
  | ok o => cases o with
    | none => simp [Client.find, h]
    | some t => simp [Client.find, h]

/-- Witness for C5: `cards` is not excluded, and on a decoded envelope the
concrete `find` yields its payload. -/
theorem find_some_iff_decoded_envelope_witness :
    ResourceKind.card.path ∉ excludedSegments ∧
    (Client.find (T := Nat) (Client.new "k") ResourceKind.card "xy1-1"
      (FindResponse.ok (some 42))).1 = some 42 :=
  ⟨by decide,
    ((find_some_iff_decoded_envelope _ _ _ _ (by decide)).1 42).mpr rfl⟩

/-- Claim C7: when the transport fails on the very first request, `all()` (and
`_where()`) returns the empty sequence — the loop breaks at once, with
nothing accumulated and no error surfaced. -/
theorem all_first_transport_error_returns_empty {T : Type} (c : Client)
    (k : ResourceKind) (rs : List (Response T)) (m : List (String × String)) :
    ((Client.all c k (Response.transportError :: rs)).res = [] ∧
      (Client.all c k (Response.transportError :: rs)).halted = true) ∧
    ((Client.whereQ c k m (Response.transportError :: rs)).res = [] ∧
      (Client.whereQ c k m (Response.transportError :: rs)).halted = true) := by
  have hall : ∀ c' : Client,
      (Client.all (T := T) c' k (Response.transportError :: rs)).res = [] ∧
      (Client.all (T := T) c' k (Response.transportError :: rs)).halted = true := by
    intro c'
    rw [Client.all_res, Client.all_halted, allLoop_cons]
    exact ⟨rfl, rfl⟩
  exact ⟨hall c, hall _⟩

/-- Claim C6: whenever an `all()` or `_where()` invocation actually returns
(`halted = true`, i.e. the paging loop exited via `break`), the client's
`args` map is empty, no matter how the loop terminated. -/
theorem all_where_args_cleared_on_return {T : Type} (c : Client)
    (k : ResourceKind) (rs : List (Response T)) (m : List (String × String)) :
    ((Client.all c k rs).halted = true → (Client.all c k rs).client.args = []) ∧
    ((Client.whereQ c k m rs).halted = true →
      (Client.whereQ c k m rs).client.args = []) := by
  have hall : ∀ c' : Client, (Client.all (T := T) c' k rs).halted = true →
      (Client.all (T := T) c' k rs).client.args = [] := by
    intro c'
    unfold Client.all
    by_cases h :
        (allLoop c'.key (collectionUrl k) rs (seedArgs c'.args) true [] []).halted <;>
      simp [h]
  exact ⟨hall c, hall _⟩

/-- Witness for C6: a concrete run that halts (first response is a
transport error) ends with `args = []`, both for `all` and for `_where`. -/
theorem all_where_args_cleared_on_return_witness :
    ((Client.all (T := Nat) (Client.new "k") ResourceKind.card
        [Response.transportError]).halted = true ∧
      (Client.all (T := Nat) (Client.new "k") ResourceKind.card
        [Response.transportError]).client.args = []) ∧
    ((Client.whereQ (T := Nat) (Client.new "k") ResourceKind.card
        [("q", "name:x")] [Response.transportError]).halted = true ∧
      (Client.whereQ (T := Nat) (Client.new "k") ResourceKind.card
        [("q", "name:x")] [Response.transportError]).client.args = []) :=
  ⟨⟨by decide,
      (all_where_args_cleared_on_return (Client.new "k") ResourceKind.card
        [Response.transportError] [("q", "name:x")]).1 (by decide)⟩,
    ⟨by decide,
      (all_where_args_cleared_on_return (Client.new "k") ResourceKind.card
        [Response.transportError] [("q", "name:x")]).2 (by decide)⟩⟩

/-- Claim C9: the no-query-string branch of the request builder is unreachable —
every request `all()` issues carries query arguments that contain the
`page` key (seeded before the loop and never removed inside it). -/
theorem all_every_request_has_page_query {T : Type} (c : Client)
    (k : ResourceKind) (rs : List (Response T)) :
    (Client.all c k rs).log.all Request.hasPageQuery = true := by
  rw [Client.all_log]
  exact allLoop_page_invariant c.key (collectionUrl k) rs (seedArgs c.args) true [] []
    (seedArgs_has_page c.args) rfl

/-- Claim C1 counterexample: with two successfully decoded pages available, a
concrete `all()` run issues two GET requests — not exactly one — and has
not stopped, both when the caller supplied no `page` key and when the
caller supplied `page = "3"`. -/
theorem all_single_shot_counterexample :
    ((Client.all (T := Nat) (Client.new "k") ResourceKind.card
        [Response.ok (some [1]), Response.ok (some [2])]).log.length = 2 ∧
      (Client.all (T := Nat) (Client.new "k") ResourceKind.card
        [Response.ok (some [1]), Response.ok (some [2])]).halted = false) ∧
    ((Client.all (T := Nat) { key := "k", args := [("page", "3")] } ResourceKind.card
        [Response.ok (some [1]), Response.ok (some [2])]).log.length = 2 ∧
      (Client.all (T := Nat) { key := "k", args := [("page", "3")] } ResourceKind.card
        [Response.ok (some [1]), Response.ok (some [2])]).halted = false) := by
  decide

/-- Claim C1 amended: every invocation of `all()` sends its first request with
the caller's `page` value as-is (seeding `page=1` when absent), but after
every successfully decoded response it advances the page and issues a
further request: against a stream of `n` decodable pages it issues `n`
requests and never exits the loop on its own, in both modes. -/
theorem all_succeeding_pages_loop_never_stops {T : Type} (key p : String)
    (k : ResourceKind) (n : Nat) (items : List T) :
    ((Client.all (Client.new key) k
        (List.replicate n (Response.ok (some items)))).log.length = n ∧
      (Client.all (Client.new key) k
        (List.replicate n (Response.ok (some items)))).halted = false) ∧
    ((Client.all { key := key, args := [("page", p)] } k
        (List.replicate n (Response.ok (some items)))).log.length = n ∧
      (Client.all { key := key, args := [("page", p)] } k
        (List.replicate n (Response.ok (some items)))).halted = false) ∧
    (Client.all { key := key, args := [("page", p)] } k
        (List.replicate (n + 1) (Response.ok (some items)))).log.head?.map
        Request.query = some (some [("page", p)]) := by
  have hl : Args.lookup [("page", p)] "page" = some p := by simp [Args.lookup]
  refine ⟨?_, ?_, ?_⟩
  · rw [Client.all_log, Client.all_halted]
    dsimp only [Client.new]
    have h := allLoop_ok_stream (T := T) key (collectionUrl k) items n
      (seedArgs []) [] [] (seedArgs_has_page _)
    exact ⟨by rw [h.2]; simp, h.1⟩
  · rw [Client.all_log, Client.all_halted]
    dsimp only
    rw [seedArgs_of_lookup_some hl]
    have h := allLoop_ok_stream (T := T) key (collectionUrl k) items n
      [("page", p)] [] [] (by simp [hl])
    exact ⟨by rw [h.2]; simp, h.1⟩
  · rw [Client.all_log]
    dsimp only
    rw [seedArgs_of_lookup_some hl, List.replicate_succ, allLoop_log_head]
    simp [loopRequest]

/-- Claim C2 counterexample: at a concrete input whose first response fails to
decode, the loop does not terminate there with the accumulated (empty)
partial result — a second request is issued and the loop still has not
exited. -/
theorem all_decode_failure_stop_counterexample :
    (Client.all (T := Nat) (Client.new "k") ResourceKind.card
        [Response.ok none, Response.ok none]).log.length = 2 ∧
    ¬ (Client.all (T := Nat) (Client.new "k") ResourceKind.card
        [Response.ok none, Response.ok none]).halted = true := by
  decide

/-- Claim C2 amended: the paging loop terminates, returning the accumulated
partial result with no error surfaced, when a request fails at the
transport layer; but when a response fails to decode, the loop does not
stop — nothing is appended, no error is surfaced, and another request is
issued with unchanged state, so a stream of `n` undecodable responses
yields `n` requests with the loop still running. -/
theorem all_stops_only_on_transport_error {T : Type} (key url : String)
    (rest : List (Response T)) (args : Args) (fa : Bool) (res : List T)
    (log : List Request) (c : Client) (k : ResourceKind) (n : Nat) :
    (allLoop key url (Response.transportError :: rest) args fa res log =
      { res := res, log := log ++ [loopRequest key url args]
        client := { key := key, args := args }, halted := true }) ∧
    (allLoop key url (Response.ok none :: rest) args fa res log =
      allLoop key url rest args fa res (log ++ [loopRequest key url args])) ∧
    ((Client.all c k (List.replicate n (Response.ok (none : Option (List T))))).res
        = [] ∧
      (Client.all c k
        (List.replicate n (Response.ok (none : Option (List T))))).log.length = n ∧
      (Client.all c k
        (List.replicate n (Response.ok (none : Option (List T))))).halted = false) := by
  refine ⟨rfl, rfl, ?_⟩
  have h := allLoop_decode_fail_stream (T := T) c.key (collectionUrl k) n
    (seedArgs c.args) true [] []
  rw [Client.all_res, Client.all_log, Client.all_halted, h]
  simp

/-- Claim C3 counterexample: on a Client whose args mapping is empty, the single
GET request issued before a transport failure does carry URL query-string
parameters (namely `page=1`), contrary to the claim that it carries none. -/
theorem all_empty_args_request_carries_query_counterexample :
    (Client.all (T := Nat) (Client.new "k") ResourceKind.card
        [Response.transportError]).log.map Request.query ≠ [none] ∧
    (Client.all (T := Nat) (Client.new "k") ResourceKind.card
        [Response.transportError]).log.map Request.query = [some [("page", "1")]] := by
  decide

/-- Claim C3 amended: on a Client whose args mapping is empty, `page = "1"` is
seeded before the loop, so the first GET request carries exactly the query
parameter `page=1` (query parameters are attached only when the args at
send time are non-empty, which always holds). -/
theorem all_empty_args_first_request_query_page1 {T : Type} (key : String)
    (k : ResourceKind) (r : Response T) (rs : List (Response T)) :
    (Client.all (Client.new key) k (r :: rs)).log.head?.map Request.query =
      some (some [("page", "1")]) := by
  rw [Client.all_log]
  have hseed : seedArgs (Client.new key).args = [("page", "1")] := seedArgs_nil
  rw [hseed, allLoop_log_head]
  simp [loopRequest]

/-- Claim C8: `_where(m)` is exactly "replace the Client's args wholesale with
`m`, then run `all`": same result sequence, same request log, same final
client state (as `m` is a `HashMap`, its keys are pairwise distinct). -/
theorem where_eq_replace_args_then_all {T : Type} (c : Client)
    (k : ResourceKind) (m : List (String × String)) (rs : List (Response T))
    (h : m.Pairwise (fun p q => p.1 ≠ q.1)) :
    Client.whereQ c k m rs = Client.all { c with args := m } k rs := by
  simp only [Client.whereQ]
  rw [foldl_insert_of_nodup_keys m [] (by simp) h]
  simp

/-- Witness for C8 at a concrete singleton filter mapping. -/
theorem where_eq_replace_args_then_all_witness :
    ([("q", "name:x")] : List (String × String)).Pairwise (fun p q => p.1 ≠ q.1) ∧
    Client.whereQ (T := Nat) (Client.new "k") ResourceKind.card [("q", "name:x")]
        [Response.transportError] =
      Client.all { Client.new "k" with args := [("q", "name:x")] } ResourceKind.card
        [Response.transportError] :=
  ⟨by simp, where_eq_replace_args_then_all _ _ _ _ (by simp)⟩

/-- Claim C10: when the caller-supplied `page` value fails to parse as an
integer, the page-advance step stores `0 + 1 = 1`, so the request after the
first successfully decoded page is issued with `page=1`. -/
theorem unparseable_page_next_request_page1 {T : Type} (key v : String)
    (k : ResourceKind) (items : List T) (r : Response T) (rs : List (Response T))
    (hv : parseI32 v = none) :
    ∃ t, (Client.all { key := key, args := [("page", v)] } k
        (Response.ok (some items) :: r :: rs)).log.map Request.query =
      some [("page", v)] :: some [("page", "1")] :: t := by
  rw [Client.all_log]
  have hl : Args.lookup [("page", v)] "page" = some v := by simp [Args.lookup]
  have hseed : seedArgs (Client.mk key [("page", v)]).args = [("page", v)] :=
    seedArgs_of_lookup_some hl
  rw [hseed]
  rw [allLoop_ok_some_page key (collectionUrl k) items (r :: rs) [("page", v)] [] [] v hl]
  have hone : toString (wrap32 (parseI32or0 v + 1)) = "1" := by
    have hparse : parseI32or0 v = 0 := by simp [parseI32or0, hv]
    rw [hparse]
    decide
  rw [hone]
  have hins : Args.insert [("page", v)] "page" "1" = [("page", "1")] := by
    simp [Args.insert]
  rw [hins, allLoop_log_shift]
  simp only [List.nil_append]
  have hhead := allLoop_log_head key (collectionUrl k) r rs [("page", "1")] true items
  obtain ⟨l2, hl2⟩ : ∃ l2,
      (allLoop key (collectionUrl k) (r :: rs) [("page", "1")] true items []).log =
        loopRequest key (collectionUrl k) [("page", "1")] :: l2 := by
    cases hlog :
        (allLoop key (collectionUrl k) (r :: rs) [("page", "1")] true items []).log with
    | nil => rw [hlog] at hhead; simp at hhead
    | cons a l =>
      rw [hlog] at hhead
      simp at hhead
      exact ⟨l, by rw [hhead]⟩
  rw [hl2]
  exact ⟨l2.map Request.query, by simp [loopRequest]⟩

/-- Witness for C10: the caller's `page` value `"abc"` fails to parse and
the second request goes out with `page=1`. -/
theorem unparseable_page_next_request_page1_witness :
    parseI32 "abc" = none ∧
    ∃ t, (Client.all (T := Nat) { key := "k", args := [("page", "abc")] }
        ResourceKind.card [Response.ok (some [5]), Response.transportError]).log.map
        Request.query = some [("page", "abc")] :: some [("page", "1")] :: t :=
  ⟨by decide, unparseable_page_next_request_page1 "k" "abc" ResourceKind.card [5]
      Response.transportError [] (by decide)⟩

end PokemonTcgSdk
